import Mathlib

/-!
Verification of the generic maximum-likelihood estimation example
(`examples/ipynb/example_gmle.ipynb`) and the generic estimation engine it
demonstrates (`GenericLikelihoodModel`).

The notebook code (`_ll_nb2`, class `NBin`) is embedded directly.  The generic
engine itself (`GenericLikelihoodModel.fit`, the objective adapter, the
optimizer loop and the inference engine) is not part of the source tree, so it
is modelled from the specification; each such definition carries a doc comment
saying so.  Real-valued floating point arithmetic is modelled by `ℝ`;
non-finite values (NaN/Inf) produced by a user callback are modelled by
`Option ℝ` with `none` standing for a non-finite value.
-/

namespace GMLE

open Matrix

/-- Dot product of two rows, `np.dot(x, beta)` on 1-d arrays. -/
noncomputable def dot (xs bs : List ℝ) : ℝ :=
  (List.zipWith (fun a b => a * b) xs bs).sum

/-- Modelled from the documented formula of `scipy.stats.nbinom.logpmf`
(an external dependency of the notebook):
`logpmf(k, n, p) = log Γ(k+n) - log Γ(n) - log Γ(k+1) + n·log p + k·log (1-p)`. -/
noncomputable def nbinomLogpmf (k n p : ℝ) : ℝ :=
  Real.log (Real.Gamma (k + n)) - Real.log (Real.Gamma n) - Real.log (Real.Gamma (k + 1))
    + n * Real.log p + k * Real.log (1 - p)

/-- One observation of `_ll_nb2`: the notebook computes
`mu = exp(X·beta)`, `size = 1/alph`, `prob = size/(size+mu)`,
`ll = nbinom.logpmf(y, size, prob)` elementwise. -/
noncomputable def ll_nb2_obs (yi : ℝ) (xi : List ℝ) (beta : List ℝ) (alph : ℝ) : ℝ :=
  nbinomLogpmf yi (1 / alph) ((1 / alph) / (1 / alph + Real.exp (dot xi beta)))

/-- `_ll_nb2(y, X, beta, alph)` from the notebook, elementwise over rows. -/
noncomputable def ll_nb2 (y : List ℝ) (X : List (List ℝ)) (beta : List ℝ) (alph : ℝ) : List ℝ :=
  List.zipWith (fun yi xi => ll_nb2_obs yi xi beta alph) y X

/-- The `NBin` model class: it binds `endog` (the response `y`) and `exog`
(the `N × K` regressor matrix `X`). -/
structure NBin where
  endog : List ℝ
  exog : List (List ℝ)

/-- `NBin.nloglikeobs(params)`: `alph = params[-1]`, `beta = params[:-1]`,
returns `-_ll_nb2(endog, exog, beta, alph)` (elementwise negation). -/
noncomputable def NBin.nloglikeobs (m : NBin) (params : List ℝ) : List ℝ :=
  (ll_nb2 m.endog m.exog params.dropLast (params.getLastD 0)).map (fun v => -v)

/-- `exog.shape[1]`, the number `K` of regressor columns (length of a row). -/
def shape1 (X : List (List ℝ)) : ℕ :=
  (X.headD []).length

/-- `endog.mean()`. -/
noncomputable def listMean (l : List ℝ) : ℝ :=
  l.sum / l.length

/-- The default starting vector computed by `NBin.fit` when
`start_params = None`:
`start_params = np.append(np.zeros(exog.shape[1]), .5)` followed by
`start_params[0] = np.log(endog.mean())`. -/
noncomputable def NBin.defaultStart (m : NBin) : List ℝ :=
  (List.replicate (shape1 m.exog) (0 : ℝ) ++ [(0.5 : ℝ)]).set 0
    (Real.log (listMean m.endog))

/-- The starting vector `NBin.fit` hands to `GenericLikelihoodModel.fit`:
the caller's array when one is given, the computed default otherwise. -/
noncomputable def NBin.fitStart (m : NBin) (startParams : Option (List ℝ)) : List ℝ :=
  match startParams with
  | none => m.defaultStart
  | some s => s

/-- The argument triple `(start_params, maxiter, maxfun)` that `NBin.fit`
forwards to `super(NBin, self).fit`. -/
noncomputable def NBin.fitCall (m : NBin) (startParams : Option (List ℝ)) (maxiter maxfun : ℕ) :
    List ℝ × ℕ × ℕ :=
  (m.fitStart startParams, maxiter, maxfun)

/-- Default of the `maxiter` keyword of `NBin.fit`. -/
def NBin.fitMaxiterDefault : ℕ := 10000

/-- Default of the `maxfun` keyword of `NBin.fit`. -/
def NBin.fitMaxfunDefault : ℕ := 5000

/-! ## The generic engine, modelled from the spec -/

/-- Modelled from the spec: the error taxonomy of §7 of the specification
(`GenericLikelihoodModel` itself is not in the source tree). -/
inductive FitError where
  | dimensionError
  | numericalEvaluationError
  | optimizationError
  | singularHessianError
  | negativeVarianceError
  deriving DecidableEq

/-- Modelled from the spec: the ObjectiveAdapter of §4.1 over finite values:
`objective(θ) = sum(nloglikeobs(θ))`. -/
noncomputable def objective (nll : List ℝ → List ℝ) (θ : List ℝ) : ℝ :=
  (nll θ).sum

/-- Modelled from the spec: one guarded evaluation of the objective (§4.1,
§4.5, §7).  The callback's output values may be non-finite (`none`).  The
engine checks the returned per-observation array's length against `N`
(`DimensionError` on mismatch) and propagates any non-finite value as a failed
evaluation (`NumericalEvaluationError`); otherwise it returns the sum. -/
noncomputable def evalObjective (nll : List ℝ → List (Option ℝ)) (N : ℕ) (θ : List ℝ) :
    Except FitError ℝ :=
  let v := nll θ
  if v.length ≠ N then .error .dimensionError
  else if v.any (fun o => o.isNone) then .error .numericalEvaluationError
  else .ok (v.map (fun o => o.getD 0)).sum

/-- `k`-fold application of the optimizer's step function. -/
def iterate (step : List ℝ → List ℝ) : ℕ → List ℝ → List ℝ
  | 0, θ => θ
  | n + 1, θ => iterate step n (step θ)

/-- Modelled from the spec: the Optimizer of §4.3.  The concrete quasi-Newton
update and the convergence tolerance are implementation choices the spec
leaves open (§9), so they are parameters: `step` maps the current iterate to
the next one and `conv` is the termination test.  `minimize` returns
`(θ*, converged, n_iter)`; when the iteration budget is exhausted before the
test succeeds it returns `converged = false` instead of failing. -/
def minimize (step : List ℝ → List ℝ) (conv : List ℝ → Bool) :
    ℕ → List ℝ → List ℝ × Bool × ℕ
  | 0, θ => (θ, conv θ, 0)
  | fuel + 1, θ =>
    if conv θ then (θ, true, 0)
    else
      let r := minimize step conv fuel (step θ)
      (r.1, r.2.1, r.2.2 + 1)

/-- Modelled from the spec: `Model.fit` of §4.5, instrumented with the number
of optimizer iterations that were executed (second component).  The first
evaluation of the callback is checked (lazily detected `DimensionError`,
non-finite starting evaluation) before the optimizer runs; on success the
optimizer outcome `(θ*, converged)` is returned. -/
noncomputable def fitTrace (nll : List ℝ → List (Option ℝ)) (N : ℕ)
    (step : List ℝ → List ℝ) (conv : List ℝ → Bool)
    (start : List ℝ) (maxiter : ℕ) :
    Except FitError (List ℝ × Bool) × ℕ :=
  match evalObjective nll N start with
  | .error e => (.error e, 0)
  | .ok _ =>
    let r := minimize step conv maxiter start
    (.ok (r.1, r.2.1), r.2.2)

/-- Perturbation of a parameter vector in one coordinate, the elementary
operation of finite differencing. -/
def perturb {P : ℕ} (θ : Fin P → ℝ) (i : Fin P) (h : ℝ) : Fin P → ℝ :=
  fun k => if k = i then θ k + h else θ k

/-- Modelled from the spec: the finite-difference Hessian of the
NumericDifferentiator (§4.2), entry `(i, j)` formed from the four objective
evaluations at `θ` perturbed by `h` in coordinates `i` and `j`. -/
noncomputable def fdHessian {P : ℕ} (f : (Fin P → ℝ) → ℝ) (θ : Fin P → ℝ) (h : ℝ) :
    Matrix (Fin P) (Fin P) ℝ :=
  Matrix.of fun i j =>
    (f (perturb (perturb θ i h) j h) - f (perturb θ i h) - f (perturb θ j h) + f θ) / h ^ 2

/-- Modelled from the spec: `Covariance = inverse(Hessian)` (§4.4), the
Hessian being the finite-difference Hessian of the objective at the optimum. -/
noncomputable def covMatrix {P : ℕ} (f : (Fin P → ℝ) → ℝ) (θ : Fin P → ℝ) (h : ℝ) :
    Matrix (Fin P) (Fin P) ℝ :=
  (fdHessian f θ h)⁻¹

open Classical in
/-- Modelled from the spec: `StandardErrors[i] = sqrt(Covariance[i][i])`,
failing with `NegativeVarianceError` if a diagonal entry is negative (§4.4). -/
noncomputable def stdErr {P : ℕ} (C : Matrix (Fin P) (Fin P) ℝ) :
    Except FitError (Fin P → ℝ) :=
  if ∀ i, 0 ≤ C i i then .ok (fun i => Real.sqrt (C i i))
  else .error .negativeVarianceError

/-- The standard normal cumulative distribution function `Φ`. -/
noncomputable def normalCDF (x : ℝ) : ℝ :=
  (∫ t in Set.Iic x, Real.exp (-(t ^ 2) / 2)) / Real.sqrt (2 * Real.pi)

/-- The immutable result snapshot of a fit (§3, §4.5). -/
structure GLMResult where
  params : List ℝ
  bse : List ℝ
  pvalues : List ℝ
  llf : ℝ
  aic : ℝ
  bic : ℝ
  nobs : ℕ
  converged : Bool

/-- Modelled from the spec: the InferenceEngine of §4.4 assembling the Result
fields from the optimum `θ`, the objective, the standard errors and `N`:
`LogLikelihood = −objective(θ*)`, `z[i] = θ*[i]/bse[i]`,
`p[i] = 2(1 − Φ(|z[i]|))`, `AIC = 2P − 2·LogLikelihood`,
`BIC = P·ln(N) − 2·LogLikelihood`. -/
noncomputable def inferResult (obj : List ℝ → ℝ) (θ : List ℝ) (bse : List ℝ)
    (N : ℕ) (conv : Bool) : GLMResult :=
  let llf := -(obj θ)
  let P := θ.length
  ⟨θ, bse,
    List.zipWith (fun t s => 2 * (1 - normalCDF |t / s|)) θ bse,
    llf, 2 * P - 2 * llf, P * Real.log N - 2 * llf, N, conv⟩

/-- The closed-form NB-2 per-observation log-likelihood displayed in the
notebook:
`y·ln(αμ/(1+αμ)) − (1/α)·ln(1+αμ) + lnΓ(y+1/α) − lnΓ(y+1) − lnΓ(1/α)`. -/
noncomputable def nb2ClosedForm (yi mu alph : ℝ) : ℝ :=
  yi * Real.log (alph * mu / (1 + alph * mu)) - (1 / alph) * Real.log (1 + alph * mu)
    + Real.log (Real.Gamma (yi + 1 / alph)) - Real.log (Real.Gamma (yi + 1))
    - Real.log (Real.Gamma (1 / alph))

/-! ## Theorems -/

/-- C1: for every parameter vector `θ`, the scalar objective minimized by
`fit` equals the sum over the `N` observations of the per-observation negative
log-likelihood values returned by `nloglikeobs(θ)`, and `NBin.nloglikeobs(θ)`
returns a sequence of exactly `N` values (one per row of `endog`/`exog`). -/
theorem claim_C1 (m : NBin) (hlen : m.exog.length = m.endog.length) (θ : List ℝ) :
    (m.nloglikeobs θ).length = m.endog.length ∧
    objective m.nloglikeobs θ = (m.nloglikeobs θ).sum ∧
    evalObjective (fun t => (m.nloglikeobs t).map some) m.endog.length θ =
      .ok (objective m.nloglikeobs θ) := by
  have hlen' : (m.nloglikeobs θ).length = m.endog.length := by
    simp [NBin.nloglikeobs, ll_nb2, hlen]
  refine ⟨hlen', rfl, ?_⟩
  simp only [evalObjective]
  rw [if_neg, if_neg]
  · have hco : ((fun o : Option ℝ => o.getD 0) ∘ some) = id := rfl
    simp [objective, hco]
  · simp [Function.comp]
  · simp [hlen']

theorem claim_C1_witness :
    (NBin.mk [1] [[1]]).exog.length = (NBin.mk [1] [[1]]).endog.length ∧
    (((NBin.mk [1] [[1]]).nloglikeobs [0, 1]).length
        = (NBin.mk [1] [[1]]).endog.length ∧
      objective (NBin.mk [1] [[1]]).nloglikeobs [0, 1]
        = ((NBin.mk [1] [[1]]).nloglikeobs [0, 1]).sum ∧
      evalObjective (fun t => ((NBin.mk [1] [[1]]).nloglikeobs t).map some)
          (NBin.mk [1] [[1]]).endog.length [0, 1]
        = .ok (objective (NBin.mk [1] [[1]]).nloglikeobs [0, 1])) :=
  ⟨rfl, claim_C1 (NBin.mk [1] [[1]]) rfl [0, 1]⟩

/-- C2: for every Result assembled by the inference engine, the reported
information criteria satisfy exactly `AIC = 2·P − 2·loglike` and
`BIC = P·ln(N) − 2·loglike`, `loglike` being the reported log-likelihood. -/
theorem claim_C2 (obj : List ℝ → ℝ) (θ bse : List ℝ) (N : ℕ) (c : Bool) :
    (inferResult obj θ bse N c).aic
        = 2 * (inferResult obj θ bse N c).params.length
            - 2 * (inferResult obj θ bse N c).llf ∧
    (inferResult obj θ bse N c).bic
        = (inferResult obj θ bse N c).params.length
              * Real.log (inferResult obj θ bse N c).nobs
            - 2 * (inferResult obj θ bse N c).llf :=
  ⟨rfl, rfl⟩

/-- C3: when `start_params` is inconsistent with what `nloglikeobs` expects
(detected on the first evaluation: the returned per-observation array's length
differs from `N`), `fit` fails with `DimensionError` and executes zero
optimizer iterations. -/
theorem claim_C3 (nll : List ℝ → List (Option ℝ)) (N : ℕ)
    (step : List ℝ → List ℝ) (conv : List ℝ → Bool) (start : List ℝ) (maxiter : ℕ)
    (hbad : (nll start).length ≠ N) :
    fitTrace nll N step conv start maxiter = (.error .dimensionError, 0) := by
  simp [fitTrace, evalObjective, hbad]

theorem claim_C3_witness :
    ((fun _ : List ℝ => ([] : List (Option ℝ))) []).length ≠ 1 ∧
    fitTrace (fun _ : List ℝ => ([] : List (Option ℝ))) 1 id (fun _ => true) [] 5
      = (.error .dimensionError, 0) :=
  ⟨by decide, claim_C3 _ 1 id (fun _ => true) [] 5 (by decide)⟩

/-- C4: if the callback returns NaN (a non-finite value, modelled `none`) for
all observations at the starting parameter vector, `fit` fails with
`NumericalEvaluationError` instead of returning a Result. -/
theorem claim_C4 (nll : List ℝ → List (Option ℝ)) (N : ℕ)
    (step : List ℝ → List ℝ) (conv : List ℝ → Bool) (start : List ℝ) (maxiter : ℕ)
    (hlen : (nll start).length = N) (hN : 0 < N)
    (hnan : ∀ o ∈ nll start, o.isNone = true) :
    fitTrace nll N step conv start maxiter
      = (.error .numericalEvaluationError, 0) := by
  have hne : nll start ≠ [] := by
    rw [← List.length_pos, hlen]; exact hN
  obtain ⟨o, ho⟩ := List.exists_mem_of_ne_nil _ hne
  have hany : (nll start).any (fun o => o.isNone) = true :=
    List.any_eq_true.mpr ⟨o, ho, hnan o ho⟩
  simp [fitTrace, evalObjective, hlen, hany]

theorem claim_C4_witness :
    ((fun _ : List ℝ => [(none : Option ℝ)]) []).length = 1 ∧ 0 < 1 ∧
    (∀ o ∈ (fun _ : List ℝ => [(none : Option ℝ)]) [], o.isNone = true) ∧
    fitTrace (fun _ : List ℝ => [(none : Option ℝ)]) 1 id (fun _ => true) [] 5
      = (.error .numericalEvaluationError, 0) :=
  ⟨by decide, by decide, by decide,
    claim_C4 _ 1 id (fun _ => true) [] 5 (by decide) (by decide) (by decide)⟩

/-- The optimizer run under a convergence test that fails at every iterate it
visits: it consumes the whole budget and reports `converged = false`. -/
theorem minimize_of_not_conv (step : List ℝ → List ℝ) (conv : List ℝ → Bool) :
    ∀ (fuel : ℕ) (θ : List ℝ),
      (∀ k ≤ fuel, conv (iterate step k θ) = false) →
      minimize step conv fuel θ = (iterate step fuel θ, false, fuel) := by
  intro fuel
  induction fuel with
  | zero =>
    intro θ hconv
    simpa [minimize, iterate] using hconv 0 (Nat.le_refl 0)
  | succ n ih =>
    intro θ hconv
    have h0 : conv θ = false := hconv 0 (Nat.zero_le _)
    have hrest : ∀ k ≤ n, conv (iterate step k (step θ)) = false := by
      intro k hk
      exact hconv (k + 1) (Nat.succ_le_succ hk)
    simp [minimize, h0, ih (step θ) hrest, iterate]

/-- C5: a fit that exhausts its iteration budget without ever meeting the
convergence test returns a Result with `converged = false` — non-convergence
is not escalated to an error. -/
theorem claim_C5 (nll : List ℝ → List (Option ℝ)) (N : ℕ)
    (step : List ℝ → List ℝ) (conv : List ℝ → Bool) (start : List ℝ) (maxiter : ℕ)
    (hlen : (nll start).length = N)
    (hfin : ∀ o ∈ nll start, o.isNone = false)
    (hnc : ∀ k ≤ maxiter, conv (iterate step k start) = false) :
    fitTrace nll N step conv start maxiter
      = (.ok (iterate step maxiter start, false), maxiter) := by
  have hany : (nll start).any (fun o => o.isNone) = false :=
    List.any_eq_false.mpr (fun o ho h => by simp [hfin o ho] at h)
  simp [fitTrace, evalObjective, hlen, hany,
    minimize_of_not_conv step conv maxiter start hnc]

theorem claim_C5_witness :
    ((fun _ : List ℝ => [(some 0 : Option ℝ)]) []).length = 1 ∧
    (∀ o ∈ (fun _ : List ℝ => [(some 0 : Option ℝ)]) [], o.isNone = false) ∧
    (∀ k ≤ 2, (fun _ : List ℝ => false) (iterate id k []) = false) ∧
    fitTrace (fun _ : List ℝ => [(some 0 : Option ℝ)]) 1 id (fun _ => false) [] 2
      = (.ok (iterate id 2 [], false), 2) :=
  ⟨by decide, by decide, by decide,
    claim_C5 _ 1 id (fun _ => false) [] 2 (by decide) (by decide)
      (fun k _ => rfl)⟩

/-- C7: for every parameter index `i`, the reported p-value equals
`2·(1 − Φ(|z[i]|))` with `z[i] = θ*[i] / bse[i]` and `Φ` the standard normal
CDF. -/
theorem claim_C7 (obj : List ℝ → ℝ) (θ bse : List ℝ) (N : ℕ) (c : Bool)
    (i : ℕ) (t s : ℝ) (ht : θ[i]? = some t) (hs : bse[i]? = some s) :
    (inferResult obj θ bse N c).pvalues[i]? = some (2 * (1 - normalCDF |t / s|)) := by
  show (List.zipWith (fun t s => 2 * (1 - normalCDF |t / s|)) θ bse)[i]? = _
  exact List.getElem?_zipWith_eq_some.mpr ⟨t, s, ht, hs, rfl⟩

theorem claim_C7_witness :
    ([(1 : ℝ)])[0]? = some 1 ∧ ([(1 : ℝ)])[0]? = some 1 ∧
    (inferResult (fun _ => 0) [(1 : ℝ)] [(1 : ℝ)] 1 true).pvalues[0]?
      = some (2 * (1 - normalCDF |(1 : ℝ) / 1|)) :=
  ⟨rfl, rfl, claim_C7 (fun _ => 0) [1] [1] 1 true 0 1 1 rfl rfl⟩

/-- C10: with a non-`None` `start_params`, `NBin.fit` does not take the
default-computation branch: it forwards `start_params`, `maxiter` (default
10000) and `maxfun` (default 5000) unchanged to the parent
`GenericLikelihoodModel.fit`, and the caller's `start_params` is not
modified. -/
theorem claim_C10 (m : NBin) (s : List ℝ) (mi mf : ℕ) :
    m.fitCall (some s) mi mf = (s, mi, mf) ∧
    m.fitStart (some s) = s ∧
    NBin.fitMaxiterDefault = 10000 ∧ NBin.fitMaxfunDefault = 5000 :=
  ⟨rfl, rfl, rfl, rfl⟩

/-- C8: `NBin.fit` with `start_params = None` on a model with `K ≥ 1`
regressor columns uses a starting vector of length `K + 1`: entry 0 is
`ln(mean(endog))`, the other coefficient entries are 0, and one appended
dispersion entry equals 0.5. -/
theorem claim_C8 (m : NBin) (K : ℕ) (hK : shape1 m.exog = K + 1) :
    (m.fitStart none).length = shape1 m.exog + 1 ∧
    (m.fitStart none)[0]? = some (Real.log (listMean m.endog)) ∧
    (∀ i, 1 ≤ i → i < shape1 m.exog → (m.fitStart none)[i]? = some (0 : ℝ)) ∧
    (m.fitStart none)[shape1 m.exog]? = some (0.5 : ℝ) := by
  have hds : m.fitStart none
      = Real.log (listMean m.endog) :: (List.replicate K (0 : ℝ) ++ [(0.5 : ℝ)]) := by
    show m.defaultStart = _
    rw [NBin.defaultStart, hK, List.replicate_succ, List.cons_append,
      List.set_cons_zero]
  rw [hds, hK]
  refine ⟨by simp, by simp, ?_, ?_⟩
  · intro i h1 h2
    cases i with
    | zero => omega
    | succ j =>
      have hj : j < K := by omega
      rw [List.getElem?_cons_succ, List.getElem?_append_left (by simpa using hj),
        List.getElem?_replicate_of_lt hj]
  · rw [List.getElem?_cons_succ, List.getElem?_append_right (by simp)]
    simp

theorem claim_C8_witness :
    shape1 (NBin.mk [1] [[1]]).exog = 0 + 1 ∧
    (((NBin.mk [1] [[1]]).fitStart none).length
        = shape1 (NBin.mk [1] [[1]]).exog + 1 ∧
      ((NBin.mk [1] [[1]]).fitStart none)[0]?
        = some (Real.log (listMean (NBin.mk [1] [[1]]).endog)) ∧
      (∀ i, 1 ≤ i → i < shape1 (NBin.mk [1] [[1]]).exog →
        ((NBin.mk [1] [[1]]).fitStart none)[i]? = some (0 : ℝ)) ∧
      ((NBin.mk [1] [[1]]).fitStart none)[shape1 (NBin.mk [1] [[1]]).exog]?
        = some (0.5 : ℝ)) :=
  ⟨rfl, claim_C8 (NBin.mk [1] [[1]]) 0 rfl⟩

/-- Coordinate perturbations in distinct steps commute. -/
theorem perturb_comm {P : ℕ} (θ : Fin P → ℝ) (i j : Fin P) (h : ℝ) :
    perturb (perturb θ i h) j h = perturb (perturb θ j h) i h := by
  funext k
  simp only [perturb]
  split_ifs <;> ring

/-- The finite-difference Hessian is symmetric by construction. -/
theorem fdHessian_symm {P : ℕ} (f : (Fin P → ℝ) → ℝ) (θ : Fin P → ℝ) (h : ℝ) :
    (fdHessian f θ h)ᵀ = fdHessian f θ h := by
  ext i j
  simp only [Matrix.transpose_apply, fdHessian, Matrix.of_apply]
  rw [perturb_comm]
  ring

/-- C6: the covariance matrix produced by the InferenceEngine is symmetric,
and on a successful fit every reported standard error satisfies
`bse[i]² = Covariance[i][i]` exactly. -/
theorem claim_C6 {P : ℕ} (f : (Fin P → ℝ) → ℝ) (θ : Fin P → ℝ) (h : ℝ)
    (bse : Fin P → ℝ) (hok : stdErr (covMatrix f θ h) = .ok bse) :
    (covMatrix f θ h)ᵀ = covMatrix f θ h ∧
    ∀ i, bse i ^ 2 = covMatrix f θ h i i := by
  constructor
  · rw [covMatrix, Matrix.transpose_nonsing_inv, fdHessian_symm]
  · unfold stdErr at hok
    by_cases hc : ∀ i, 0 ≤ covMatrix f θ h i i
    · rw [if_pos hc] at hok
      obtain rfl : (fun i => Real.sqrt (covMatrix f θ h i i)) = bse := by
        simpa using hok
      intro i
      exact Real.sq_sqrt (hc i)
    · rw [if_neg hc] at hok
      exact absurd hok (by simp)

theorem claim_C6_witness :
    stdErr (covMatrix (fun v : Fin 1 → ℝ => v 0 * v 0) (fun _ => 0) 1)
        = .ok (fun i =>
            Real.sqrt (covMatrix (fun v : Fin 1 → ℝ => v 0 * v 0) (fun _ => 0) 1 i i)) ∧
    ((covMatrix (fun v : Fin 1 → ℝ => v 0 * v 0) (fun _ => 0) 1)ᵀ
        = covMatrix (fun v : Fin 1 → ℝ => v 0 * v 0) (fun _ => 0) 1 ∧
      ∀ i, (fun i =>
            Real.sqrt (covMatrix (fun v : Fin 1 → ℝ => v 0 * v 0) (fun _ => 0) 1 i i)) i ^ 2
          = covMatrix (fun v : Fin 1 → ℝ => v 0 * v 0) (fun _ => 0) 1 i i) := by
  have hH : fdHessian (fun v : Fin 1 → ℝ => v 0 * v 0) (fun _ => 0) 1
      = Matrix.of fun _ _ => 2 := by
    ext i j
    fin_cases i
    fin_cases j
    simp [fdHessian, perturb]
    norm_num
  have hC : covMatrix (fun v : Fin 1 → ℝ => v 0 * v 0) (fun _ => 0) 1
      = Matrix.of fun _ _ => (2 : ℝ)⁻¹ := by
    rw [covMatrix, hH, Matrix.inv_def, Matrix.adjugate_fin_one, Matrix.det_fin_one]
    ext i j
    fin_cases i
    fin_cases j
    simp [Ring.inverse_eq_inv, Matrix.one_apply]
  have hcond : ∀ i : Fin 1,
      0 ≤ covMatrix (fun v : Fin 1 → ℝ => v 0 * v 0) (fun _ => 0) 1 i i := by
    intro i
    fin_cases i
    rw [hC]
    norm_num
  have hok : stdErr (covMatrix (fun v : Fin 1 → ℝ => v 0 * v 0) (fun _ => 0) 1)
      = .ok (fun i =>
          Real.sqrt (covMatrix (fun v : Fin 1 → ℝ => v 0 * v 0) (fun _ => 0) 1 i i)) := by
    unfold stdErr
    rw [if_pos hcond]
  exact ⟨hok, claim_C6 _ _ _ _ hok⟩

/-- The scipy `nbinom.logpmf` at `size = 1/α` and `prob = size/(size+μ)`
coincides with the closed-form NB-2 per-observation log-likelihood displayed
in the notebook, for `α > 0` and `μ > 0`. -/
theorem nbinomLogpmf_eq_nb2ClosedForm (yi mu alph : ℝ) (ha : 0 < alph) (hmu : 0 < mu) :
    nbinomLogpmf yi (1 / alph) ((1 / alph) / (1 / alph + mu))
      = nb2ClosedForm yi mu alph := by
  have hane : alph ≠ 0 := ne_of_gt ha
  have hs : (0 : ℝ) < 1 / alph := by positivity
  have hsm : (0 : ℝ) < 1 / alph + mu := by positivity
  have h1pos : (0 : ℝ) < 1 + alph * mu := by positivity
  have hsne : (1 : ℝ) / alph ≠ 0 := ne_of_gt hs
  have hsmne : (1 : ℝ) / alph + mu ≠ 0 := ne_of_gt hsm
  have hprob : 1 - (1 / alph) / (1 / alph + mu) = mu / (1 / alph + mu) := by
    field_simp
  have h1am : 1 + alph * mu = alph * (1 / alph + mu) := by
    field_simp
    ring
  have hfrac : alph * mu / (1 + alph * mu) = mu / (1 / alph + mu) := by
    rw [h1am, div_eq_div_iff (by positivity) hsmne]
    ring
  unfold nbinomLogpmf nb2ClosedForm
  rw [hprob, hfrac, h1am,
    Real.log_div hsne hsmne,
    Real.log_div (ne_of_gt hmu) hsmne,
    Real.log_mul hane hsmne,
    one_div, Real.log_inv]
  ring

/-- C9: for every parameter vector with last entry `α > 0`,
`NBin.nloglikeobs(params)` is the elementwise negation of
`nbinom.logpmf(y, 1/α, (1/α)/((1/α)+μ))` with `μ = exp(X·β)`,
`β = params[:-1]`, which coincides with the closed-form NB-2 expression of
the notebook, negated. -/
theorem claim_C9 (m : NBin) (params : List ℝ) (hP : 2 ≤ params.length)
    (ha : 0 < params.getLastD 0) :
    m.nloglikeobs params
      = List.zipWith
          (fun yi xi =>
            -nb2ClosedForm yi (Real.exp (dot xi params.dropLast)) (params.getLastD 0))
          m.endog m.exog ∧
    m.nloglikeobs params
      = List.zipWith
          (fun yi xi => -ll_nb2_obs yi xi params.dropLast (params.getLastD 0))
          m.endog m.exog := by
  have hbase : m.nloglikeobs params
      = List.zipWith
          (fun yi xi => -ll_nb2_obs yi xi params.dropLast (params.getLastD 0))
          m.endog m.exog := by
    simp [NBin.nloglikeobs, ll_nb2, List.map_zipWith]
  refine ⟨?_, hbase⟩
  rw [hbase]
  have hfun : (fun yi xi => -ll_nb2_obs yi xi params.dropLast (params.getLastD 0))
      = fun (yi : ℝ) (xi : List ℝ) =>
          -nb2ClosedForm yi (Real.exp (dot xi params.dropLast)) (params.getLastD 0) := by
    funext yi xi
    rw [ll_nb2_obs,
      nbinomLogpmf_eq_nb2ClosedForm yi (Real.exp (dot xi params.dropLast))
        (params.getLastD 0) ha (Real.exp_pos _)]
  rw [hfun]

theorem claim_C9_witness :
    2 ≤ ([(0 : ℝ), 1]).length ∧ (0 : ℝ) < ([(0 : ℝ), 1]).getLastD 0 ∧
    (NBin.mk [0] [[0]]).nloglikeobs [0, 1]
      = List.zipWith
          (fun yi xi =>
            -nb2ClosedForm yi (Real.exp (dot xi ([(0 : ℝ), 1]).dropLast))
              (([(0 : ℝ), 1]).getLastD 0))
          (NBin.mk [0] [[0]]).endog (NBin.mk [0] [[0]]).exog ∧
    (NBin.mk [0] [[0]]).nloglikeobs [0, 1]
      = List.zipWith
          (fun yi xi => -ll_nb2_obs yi xi ([(0 : ℝ), 1]).dropLast
              (([(0 : ℝ), 1]).getLastD 0))
          (NBin.mk [0] [[0]]).endog (NBin.mk [0] [[0]]).exog := by
  have h1 : 2 ≤ ([(0 : ℝ), 1]).length := by simp
  have h2 : (0 : ℝ) < ([(0 : ℝ), 1]).getLastD 0 := by
    simp [List.getLastD]
  exact ⟨h1, h2, (claim_C9 (NBin.mk [0] [[0]]) [0, 1] h1 h2).1,
    (claim_C9 (NBin.mk [0] [[0]]) [0, 1] h1 h2).2⟩

end GMLE
